import Mathlib

/-!
Verification of the NutriLens data-normalization pipeline (`nutrilens_app.py`).

The pipeline is shallowly embedded: Python values become `PyVal`, a raw
product record (a JSON object) becomes an association list `PyDict`,
exceptions become `Except PyErr`, and a pandas `DataFrame` becomes either
the column-less empty frame (`pd.DataFrame()`) or a table of `Row`s.
Python floats are modelled as rationals.
-/

namespace NutriLens

/-- A Python/JSON value as it appears in an Open Food Facts payload. -/
inductive PyVal where
  | none
  | bool (b : Bool)
  | num (q : ℚ)
  | str (s : String)
  | list (l : List PyVal)
  | dict (d : List (String × PyVal))

/-- A Python dict with string keys, as an association list (keys unique). -/
abbrev PyDict := List (String × PyVal)

/-- The Python exceptions the pipeline can raise. -/
inductive PyErr where
  | attributeError
  | keyError
  | typeError
  | valueError
deriving DecidableEq

/-- Python truthiness of a value (`if value:` / `x or y`). -/
def truthy : PyVal → Bool
  | .none => false
  | .bool b => b
  | .num q => decide (q ≠ 0)
  | .str s => decide (s ≠ "")
  | .list l => !l.isEmpty
  | .dict d => !d.isEmpty

/-- Python `d.get(k, dflt)`: first binding of `k`, or the default when
absent. -/
def dget (d : PyDict) (k : String) (dflt : PyVal) : PyVal :=
  match d.lookup k with
  | some v => v
  | Option.none => dflt

/-- Python `a or b`: `a` when truthy, else `b`. -/
def py_or (a b : PyVal) : PyVal :=
  if truthy a then a else b

/-- Python `str.strip()`: drop leading and trailing whitespace. (Defined on
the character list so that it evaluates inside the kernel.) -/
def py_strip (s : String) : String :=
  ⟨((s.data.dropWhile Char.isWhitespace).reverse.dropWhile Char.isWhitespace).reverse⟩

/-- Python `str.lower()` for ASCII text. -/
def py_lower (s : String) : String :=
  ⟨s.data.map Char.toLower⟩

/-- Split a character list on a separator; the empty list yields one empty
group, exactly like Python `str.split(sep)`. -/
def split_chars (sep : Char) : List Char → List (List Char)
  | [] => [[]]
  | c :: rest =>
      let r := split_chars sep rest
      if c = sep then [] :: r
      else
        match r with
        | [] => [[c]]
        | g :: gs => (c :: g) :: gs

/-- Python `s.split(sep)` for a one-character separator. -/
def py_split (s : String) (sep : Char) : List String :=
  (split_chars sep s.data).map (fun cs => ⟨cs⟩)

/-- Python `s.replace(a, b)` for one-character patterns. -/
def py_replace_char (s : String) (a b : Char) : String :=
  ⟨s.data.map (fun c => if c = a then b else c)⟩

/-- Lexicographic strict order on character lists (Python string `<`). -/
def chars_lt : List Char → List Char → Bool
  | [], [] => false
  | [], _ :: _ => true
  | _ :: _, [] => false
  | a :: as, b :: bs => if a < b then true else if b < a then false else chars_lt as bs

/-- Lexicographic strict order on strings. -/
def str_lt (a b : String) : Bool :=
  chars_lt a.data b.data

/-- Lexicographic order on strings, `a ≤ b` as `not (b < a)`. -/
def str_le (a b : String) : Bool :=
  !str_lt b a

/-- Pandas `pd.isna` as used in a boolean context: `None` is NA, scalars
are not. A list-valued argument yields an ndarray whose truth value is
ambiguous, so the surrounding `if` raises. -/
def pd_isna : PyVal → Except PyErr Bool
  | .none => .ok true
  | .list _ => .error .valueError
  | _ => .ok false

/-- Source lines 66-70, `clean_text_field(value)`: `None` for NA values and
for whitespace-only strings, otherwise the value unchanged. -/
def clean_text_field (value : PyVal) : Except PyErr PyVal := do
  let na ← pd_isna value
  if na then
    return PyVal.none
  else
    match value with
    | .str s => if py_strip s = "" then return PyVal.none else return PyVal.str s
    | .none => return PyVal.none
    | .bool b => return PyVal.bool b
    | .num q => return PyVal.num q
    | .list l => return PyVal.list l
    | .dict d => return PyVal.dict d

/-- Grade validation (source lines 90-99): a truthy resolved grade is
lowercased (raising `AttributeError` unless it is a string) and replaced by
`None` when it is not one of the five letters; a falsy resolved grade is
kept as-is. -/
def validate_grade (g : PyVal) : Except PyErr PyVal :=
  if truthy g then
    match g with
    | .str s =>
        let low := py_lower s
        if low = "a" ∨ low = "b" ∨ low = "c" ∨ low = "d" ∨ low = "e" then
          .ok (PyVal.str low)
        else
          .ok PyVal.none
    | _ => .error .attributeError
  else
    .ok g

/-- One normalized row of the DataFrame built by `normalize_products_json`
(source lines 101-120). Every cell is a `PyVal`; absent is `PyVal.none`. -/
structure Row where
  product_name : PyVal
  brands : PyVal
  categories : PyVal
  countries : PyVal
  nutriscore : PyVal
  ecoscore : PyVal
  ingredients_text : PyVal
  ingredients_tags : PyVal
  barcode : PyVal
  energy_100g_kcal : PyVal
  fat_100g : PyVal
  saturated_fat_100g : PyVal
  carbohydrates_100g : PyVal
  sugars_100g : PyVal
  fiber_100g : PyVal
  proteins_100g : PyVal
  salt_100g : PyVal
  image_url : PyVal

/-- Attribute access `.get` on a value that must be a dict. -/
def as_dict : PyVal → Except PyErr PyDict
  | .dict d => .ok d
  | _ => .error .attributeError

/-- Iterating `for p in products` requires a list; iterating any other
truthy value fails before a row can be produced. -/
def as_list : PyVal → Except PyErr (List PyVal)
  | .list l => .ok l
  | _ => .error .typeError

/-- Source line 80, `nutr = p.get("nutriments", {}) or {}`, followed by the
`.get` calls, which require a dict. -/
def get_nutriments (p : PyDict) : Except PyErr PyDict :=
  as_dict (py_or (dget p "nutriments" (PyVal.dict [])) (PyVal.dict []))

/-- Shorthand for `clean_text_field(p.get(k))`. -/
def cfield (p : PyDict) (k : String) : Except PyErr PyVal :=
  clean_text_field (dget p k PyVal.none)

/-- The `row = {...}` dict literal (source lines 101-120), given the
already-resolved field values and the raw `nutriments` dict. The tags cell
keeps the raw value only when truthy (source line 109). -/
def assembled_row (nutr : PyDict)
    (product_name brands nutriscore ecoscore categories countries
      ingredients_text tags barcode image_url : PyVal) : Row :=
  { product_name := product_name
    brands := brands
    categories := categories
    countries := countries
    nutriscore := nutriscore
    ecoscore := ecoscore
    ingredients_text := ingredients_text
    ingredients_tags := if truthy tags then tags else PyVal.none
    barcode := barcode
    energy_100g_kcal :=
      py_or (dget nutr "energy-kcal_100g" PyVal.none) (dget nutr "energy_100g" PyVal.none)
    fat_100g := dget nutr "fat_100g" PyVal.none
    saturated_fat_100g := dget nutr "saturated-fat_100g" PyVal.none
    carbohydrates_100g := dget nutr "carbohydrates_100g" PyVal.none
    sugars_100g := dget nutr "sugars_100g" PyVal.none
    fiber_100g := dget nutr "fiber_100g" PyVal.none
    proteins_100g := dget nutr "proteins_100g" PyVal.none
    salt_100g := dget nutr "salt_100g" PyVal.none
    image_url := image_url }

/-- The body of the `for p in products` loop (source lines 79-124): build the
row for one record, returning `Option.none` when the record is dropped for
lacking both a name and a barcode. -/
def normalize_record (p : PyDict) : Except PyErr (Option Row) := do
  let nutr ← get_nutriments p
  let pn1 ← cfield p "product_name"
  let product_name ← (if truthy pn1 then pure pn1 else cfield p "generic_name")
  let brands ← cfield p "brands"
  let ns1 ← cfield p "nutrition_grade_fr"
  let ns2 ← (if truthy ns1 then pure ns1 else cfield p "nutrition_grades")
  let nutriscore ← validate_grade ns2
  let eco1 ← cfield p "ecoscore_grade"
  let ecoscore ← validate_grade eco1
  let categories ← cfield p "categories"
  let countries ← cfield p "countries"
  let ingredients_text ← cfield p "ingredients_text"
  let tags := dget p "ingredients_tags" PyVal.none
  let barcode ← cfield p "code"
  let img1 ← cfield p "image_front_small_url"
  let image_url ← (if truthy img1 then pure img1 else cfield p "image_url")
  let row : Row :=
    assembled_row nutr product_name brands nutriscore ecoscore categories countries
      ingredients_text tags barcode image_url
  if truthy row.product_name || truthy row.barcode then
    return some row
  else
    return Option.none

/-- A pandas DataFrame as the pipeline uses it: either the column-less empty
frame produced by `pd.DataFrame()` / `pd.DataFrame([])`, or a table of rows
carrying the standard columns. -/
inductive DataFrame where
  | empty
  | table (rows : List Row)

/-- Accumulate the digits of a numeral; fails on a non-digit. The empty list
gives 0 (callers reject genuinely empty numerals). -/
def digits_val (cs : List Char) : Option Nat :=
  cs.foldl
    (fun acc c =>
      match acc with
      | Option.none => Option.none
      | some n => if c.isDigit then some (n * 10 + (c.toNat - 48)) else Option.none)
    (some 0)

/-- Parse a decimal numeral string the way `pd.to_numeric` accepts plain int
and float literals: optional sign, digits, optional fractional part.
(Exponent and special-float forms are not modelled; no claim exercises
them.) -/
def parse_num (s : String) : Option ℚ :=
  let t := (py_strip s).data
  let sign : ℚ := if t.headD ' ' = '-' then -1 else 1
  let body := if t.headD ' ' = '-' ∨ t.headD ' ' = '+' then t.tail else t
  match split_chars '.' body with
  | [ip] =>
      if ip.isEmpty then Option.none
      else (digits_val ip).map (fun n => sign * (n : ℚ))
  | [ip, fp] =>
      if ip.isEmpty ∧ fp.isEmpty then Option.none
      else
        match digits_val ip, digits_val fp with
        | some a, some b => some (sign * ((a : ℚ) + (b : ℚ) / ((10 : ℚ) ^ fp.length)))
        | _, _ => Option.none
  | _ => Option.none

/-- Pandas `pd.to_numeric(column, errors="coerce")`, cell-wise: numbers pass
through, booleans become 0/1, numeric strings are parsed, everything else
(including `None`) becomes NaN, modelled as absent. -/
def to_numeric_coerce : PyVal → PyVal
  | .num q => .num q
  | .bool b => .num (if b then 1 else 0)
  | .str s =>
      match parse_num s with
      | some q => .num q
      | Option.none => PyVal.none
  | _ => PyVal.none

/-- The plausibility filter (source lines 135-141), cell-wise on a coerced
column: negative values become absent for every column; `energy_100g_kcal`
above 900 becomes absent; `fat_100g`, `carbohydrates_100g` and
`proteins_100g` above 100 become absent; NaN stays absent (pandas
comparisons with NaN are false, and the cell is already absent). -/
def filter_nutrient (col : String) (v : PyVal) : PyVal :=
  match v with
  | .num q =>
      if q < 0 then PyVal.none
      else if col = "energy_100g_kcal" ∧ 900 < q then PyVal.none
      else if (col = "fat_100g" ∨ col = "carbohydrates_100g" ∨ col = "proteins_100g") ∧ 100 < q then
        PyVal.none
      else PyVal.num q
  | _ => PyVal.none

/-- The `for col in numeric_cols` loop (source lines 133-141) applied to one
row: each numeric column is coerced and then plausibility-filtered. -/
def coerce_filter_row (r : Row) : Row :=
  { r with
    energy_100g_kcal := filter_nutrient "energy_100g_kcal" (to_numeric_coerce r.energy_100g_kcal)
    fat_100g := filter_nutrient "fat_100g" (to_numeric_coerce r.fat_100g)
    saturated_fat_100g :=
      filter_nutrient "saturated_fat_100g" (to_numeric_coerce r.saturated_fat_100g)
    carbohydrates_100g :=
      filter_nutrient "carbohydrates_100g" (to_numeric_coerce r.carbohydrates_100g)
    sugars_100g := filter_nutrient "sugars_100g" (to_numeric_coerce r.sugars_100g)
    fiber_100g := filter_nutrient "fiber_100g" (to_numeric_coerce r.fiber_100g)
    proteins_100g := filter_nutrient "proteins_100g" (to_numeric_coerce r.proteins_100g)
    salt_100g := filter_nutrient "salt_100g" (to_numeric_coerce r.salt_100g) }

/-- Run the normalization loop over the `products` list, keeping retained
rows in input order. Each element must be a dict (a non-dict element has no
`.get`). -/
def build_rows : List PyVal → Except PyErr (List Row)
  | [] => .ok []
  | v :: rest => do
      let p ← as_dict v
      let r? ← normalize_record p
      let rs ← build_rows rest
      match r? with
      | some r => return r :: rs
      | Option.none => return rs

/-- Source lines 72-143, `normalize_products_json`. When `products` is
missing or falsy the column-less empty frame is returned at once. When
every record is dropped, `pd.DataFrame(rows)` has no columns, so the
numeric-coercion loop's column read `df[col]` raises `KeyError`. -/
def normalize_products_json (results_json : PyDict) : Except PyErr DataFrame := do
  let productsVal := dget results_json "products" (PyVal.list [])
  if truthy productsVal then
    let products ← as_list productsVal
    let rows ← build_rows products
    if rows.isEmpty then
      Except.error PyErr.keyError
    else
      return DataFrame.table (rows.map coerce_filter_row)
  else
    return DataFrame.empty

/-- Python `str.title()` for ASCII text: a letter starts uppercased when the
previous character is not a letter, and lowercased otherwise. -/
def py_title_aux : Bool → List Char → List Char
  | _, [] => []
  | prevAlpha, c :: rest =>
      if c.isAlpha then
        (if prevAlpha then c.toLower else c.toUpper) :: py_title_aux true rest
      else
        c :: py_title_aux false rest

/-- Python `str.title()`. -/
def py_title (s : String) : String :=
  ⟨py_title_aux false s.data⟩

/-- Source line 151, `t.split(":")[-1].replace("-", " ").title()`: the
display form of one ingredient tag. -/
def display_form (t : String) : String :=
  py_title (py_replace_char ((py_split t ':').getLastD "") '-' ' ')

/-- The blacklist test (source line 153): keep a display name only when it
is non-empty and its lowercase form is not a generic/unknown marker. -/
def keep_name (name : String) : Bool :=
  decide (name ≠ "") && decide (py_lower name ∉ ["unknown", "n/a", "none", ""])

/-- One cell of the `ingredients_tags` column, as the counting loop sees it
(source lines 148-151): NaN cells are dropped by `dropna`, non-list and
empty-list cells are skipped by `isinstance(tags, list) and tags`, and each
kept tag must be a string (`.split` on anything else raises). -/
def row_tag_names (v : PyVal) : Except PyErr (List String) :=
  match v with
  | .list ts =>
      if ts.isEmpty then .ok []
      else ts.mapM (fun t =>
        match t with
        | .str s => Except.ok s
        | _ => Except.error PyErr.attributeError)
  | _ => .ok []

/-- All display names contributed by a table, row-major in tag order, after
the blacklist filter. -/
def tag_display_names (rows : List Row) : Except PyErr (List String) := do
  let lists ← rows.mapM (fun r => row_tag_names r.ingredients_tags)
  return (lists.flatten.map display_form).filter keep_name

/-- Counter increment `counter[name] += 1`: bump the count of `k`, appending a fresh
entry (insertion order) when `k` is new. -/
def counter_add : List (String × Nat) → String → List (String × Nat)
  | [], k => [(k, 1)]
  | (k1, v) :: rest, k =>
      if k1 = k then (k1, v + 1) :: rest else (k1, v) :: counter_add rest k

/-- Stable insertion used by the sorts below: `a` goes before the first
element `b` with `le a b`. -/
def insert_by (le : α → α → Bool) (a : α) : List α → List α
  | [] => [a]
  | b :: rest => if le a b then a :: b :: rest else b :: insert_by le a rest

/-- Stable insertion sort: an element is placed before the equal elements
that followed it, so ties keep their original relative order. -/
def sort_by (le : α → α → Bool) : List α → List α
  | [] => []
  | x :: xs => insert_by le x (sort_by le xs)

/-- Python `Counter.most_common(n)`: entries sorted by count descending, ties in
insertion order (the sort is stable), truncated to `n`. -/
def most_common (c : List (String × Nat)) (n : Nat) : List (String × Nat) :=
  (sort_by (fun a b => decide (b.2 ≤ a.2)) c).take n

/-- Source lines 145-155, `top_ingredients_from_df`. On the column-less
empty frame the column read `df["ingredients_tags"]` raises `KeyError`. -/
def top_ingredients_from_df (df : DataFrame) (top_n : Nat) :
    Except PyErr (List (String × Nat)) :=
  match df with
  | .empty => .error .keyError
  | .table rows => do
      let names ← tag_display_names rows
      return most_common (names.foldl counter_add []) top_n

/-- One row of the brand summary: `{primary_brand, num_products,
avg_nutriscore}`. -/
structure BrandRow where
  primary_brand : String
  num_products : Nat
  avg_nutriscore : Option ℚ

/-- Validation the pandas `.str` accessor performs before any string
method runs: it accepts the series when the inferred dtype of its non-NA
values is string-like, mixed, or empty, and raises `AttributeError` when
those values are uniformly numeric (inferred integer, floating or
mixed-integer-float) or uniformly boolean. Any mix that contains a
string, list or dict infers as mixed or mixed-integer, which the accessor
accepts. -/
def series_str_ok (cells : List PyVal) : Bool :=
  let nn := cells.filter (fun v => !(v matches PyVal.none))
  !((!nn.isEmpty && nn.all (fun v => v matches PyVal.num _)) ||
    (!nn.isEmpty && nn.all (fun v => v matches PyVal.bool _)))

/-- Cell-wise `brands.str.split(",").str[0].str.strip()` after the `.str`
accessor accepted the brands column: the text before the first comma,
trimmed, for a string cell, NaN for any other cell. (The accessor
validation itself is applied to the column in `brand_summary`; the
follow-up `.str[0]` and `.str.strip()` act on list-or-NaN and
string-or-NaN columns, which the accessor always accepts.) -/
def primary_brand_of : PyVal → Option String
  | .str s => some (py_strip ((py_split s ',').headD ""))
  | _ => Option.none

/-- One cell of `series.str.lower().map({a:1,...,e:5})` after the `.str`
accessor accepted the series: strings are lowercased and mapped, with NaN
for letters outside the mapping and for non-string cells. -/
def grade_to_numeric_cell : PyVal → Option ℚ
  | .str s =>
      match py_lower s with
      | "a" => some 1
      | "b" => some 2
      | "c" => some 3
      | "d" => some 4
      | "e" => some 5
      | _ => Option.none
  | _ => Option.none

/-- Source lines 184-187, `nutriscore_to_numeric`, series-level:
`series.str.lower().map(mapping)`. The `.str` accessor first validates
the series and raises `AttributeError` when its non-NA values are
uniformly non-string (for example a group whose only grades are raw falsy
numbers); otherwise each cell is lowercased and mapped. -/
def nutriscore_to_numeric (cells : List PyVal) : Except PyErr (List (Option ℚ)) :=
  if series_str_ok cells then .ok (cells.map grade_to_numeric_cell)
  else .error .attributeError

/-- Group aggregate `nutriscore_to_numeric(s).mean()`: the mean ignores
NaN and is itself NaN (absent) when no grade in the group is present; the
accessor validation inside `nutriscore_to_numeric` can raise. -/
def mean_nutriscore (grp : List Row) : Except PyErr (Option ℚ) := do
  let vals ← nutriscore_to_numeric (grp.map Row.nutriscore)
  let present := vals.filterMap id
  return (if present.isEmpty then Option.none
    else some (present.sum / (present.length : ℚ)))

/-- First-occurrence deduplication (`seen` holds the values already
emitted). -/
def first_dedup (seen : List String) : List String → List String
  | [] => []
  | x :: xs => if x ∈ seen then first_dedup seen xs else x :: first_dedup (x :: seen) xs

/-- The derived primary brand of a row, with the `notna` filter built in. -/
def row_pb (r : Row) : Option String :=
  primary_brand_of r.brands

/-- The row-retention test of `brand_summary`: the derived primary brand
exists and is non-empty (`.str.len() > 0`; NaN compares false). -/
def pb_kept (r : Row) : Bool :=
  match row_pb r with
  | some s => decide (0 < s.length)
  | Option.none => false

/-- Source line 160, `df_br = df[df["brands"].notna()]`: the rows with a
brand cell present. -/
def brands_notna (rows : List Row) : List Row :=
  rows.filter (fun r => !(r.brands matches PyVal.none))

/-- Source lines 165-168: derive `primary_brand` and keep the rows whose
derived primary brand is a non-empty string. -/
def brands_kept (rows : List Row) : List Row :=
  (brands_notna rows).filter pb_kept

/-- The group keys of `groupby("primary_brand")`: the distinct derived
primary brands, which pandas sorts ascending. -/
def brand_keys (rows : List Row) : List String :=
  sort_by str_le (first_dedup [] ((brands_kept rows).filterMap row_pb))

/-- One aggregated group (source lines 173-177): `num_products` counts the
non-null product names of the group, `avg_nutriscore` is the NaN-ignoring
mean of the mapped grades, whose `.str` accessor can raise on a group
with uniformly non-string grades. -/
def brand_group (rows : List Row) (k : String) : Except PyErr BrandRow := do
  let grp := (brands_kept rows).filter (fun r => row_pb r = some k)
  let avg ← mean_nutriscore grp
  return {
    primary_brand := k
    num_products := (grp.filter (fun r => !(r.product_name matches PyVal.none))).length
    avg_nutriscore := avg }

/-- Source lines 157-182, `brand_summary`. After the first emptiness check,
`df_br["brands"].str` validates the brands column and raises
`AttributeError` when its (non-NA, by construction) values are uniformly
non-string; `groupby` sorts the group keys ascending and aggregates each
group, where the grade mean's accessor can raise again; `head(top_n)`
truncates. `sort_values("num_products", ascending=False)` uses numpy
quicksort, whose order among tied counts is unspecified; the embedding
determinizes the tie order as a stable sort (numpy's behaviour below its
insertion-sort threshold), and no theorem in this file depends on the tie
order. On the column-less empty frame the column read `df["brands"]`
raises `KeyError`. -/
def brand_summary (df : DataFrame) (top_n : Nat) : Except PyErr (List BrandRow) :=
  match df with
  | .empty => .error .keyError
  | .table rows =>
      if (brands_notna rows).isEmpty then .ok []
      else if series_str_ok ((brands_notna rows).map Row.brands) then
        if (brands_kept rows).isEmpty then .ok []
        else do
          let groups ← (brand_keys rows).mapM (brand_group rows)
          return ((sort_by (fun a b => decide (b.num_products ≤ a.num_products))
            groups).take top_n)
      else .error .attributeError

/-- Source line 755, `completeness = (valid / total * 100) if total > 0
else 0` (also at line 771). -/
def completeness_percent (total valid : Nat) : ℚ :=
  if 0 < total then (valid : ℚ) / (total : ℚ) * 100 else 0

/-- One line of the Data Quality Report. -/
structure FieldReport where
  field : String
  valid : Nat
  missing : Nat
  completeness : ℚ

/-- The fields the Data Quality Report covers (source lines 751-767): the
eight numeric columns plus name, brands and the two grades. -/
def report_fields : List (String × (Row → PyVal)) :=
  [("energy_100g_kcal", Row.energy_100g_kcal), ("fat_100g", Row.fat_100g),
   ("saturated_fat_100g", Row.saturated_fat_100g),
   ("carbohydrates_100g", Row.carbohydrates_100g), ("sugars_100g", Row.sugars_100g),
   ("fiber_100g", Row.fiber_100g), ("proteins_100g", Row.proteins_100g),
   ("salt_100g", Row.salt_100g), ("product_name", Row.product_name),
   ("brands", Row.brands), ("nutriscore", Row.nutriscore), ("ecoscore", Row.ecoscore)]

/-- The Data Quality Report loop (source lines 750-778) over the rows of a
table: per field, the count of present cells, the count of missing cells,
and the completeness percentage with its explicit zero-rows guard. -/
def completeness_report (rows : List Row) : List FieldReport :=
  report_fields.map (fun fg =>
    let total := rows.length
    let valid := (rows.filter (fun r => !(fg.2 r matches PyVal.none))).length
    { field := fg.1
      valid := valid
      missing := total - valid
      completeness := completeness_percent total valid })

/-! ### Specification-side definitions

These follow the wording of the specification (and of the claims under
check), for comparison with the definitions above, which are translated
from the source. -/

/-- Spec-side presence of a raw field: it exists and, after trimming
whitespace, is non-empty; a non-text value is present when truthy. -/
def present_text : PyVal → Bool
  | .none => false
  | .str s => decide (py_strip s ≠ "")
  | v => truthy v

/-- Spec-side retention test: the record has a name (product name, falling
back to the generic name) or a barcode. -/
def claim_keeps (p : PyDict) : Bool :=
  (present_text (dget p "product_name" PyVal.none)
      || present_text (dget p "generic_name" PyVal.none))
    || present_text (dget p "code" PyVal.none)

/-- Occurrence counts of a list of names, keyed by first occurrence:
the spec-side reading of "counts occurrences of the display-form tag". -/
def tally (xs : List String) : List (String × Nat) :=
  (first_dedup [] xs).map (fun k => (k, xs.count k))

/-- Spec-side `top_ingredients` as the amended claim words it: flatten the
display names (shared extraction and blacklist), count occurrences of each
display form in first-occurrence order, stable-sort descending by count,
truncate to `n`. -/
def top_ingredients_claim (rows : List Row) (n : Nat) :
    Except PyErr (List (String × Nat)) := do
  let names ← tag_display_names rows
  return (sort_by (fun a b => decide (b.2 ≤ a.2)) (tally names)).take n

/-- The display form exactly as claim C7 words it: last colon- or
slash-delimited segment, separators replaced by spaces, title-cased. -/
def display_form_claim (t : String) : String :=
  py_title
    (py_replace_char ((py_split ((py_split t ':').getLastD "") '/').getLastD "") '-' ' ')

/-- The plausibility predicate of the spec: a nutrient cell is absent or a
non-negative number not exceeding the column's ceiling (when it has
one). -/
def nutrient_ok (hi : Option ℚ) (v : PyVal) : Prop :=
  v = PyVal.none ∨ ∃ q : ℚ, v = PyVal.num q ∧ 0 ≤ q ∧ ∀ b, hi = some b → q ≤ b

/-- The spec's per-row plausibility invariant: energy bounded by 900; fat,
carbohydrates, proteins bounded by 100; saturated fat, sugars, fiber and
salt only non-negative. -/
def row_bounds (r : Row) : Prop :=
  nutrient_ok (some 900) r.energy_100g_kcal ∧
  nutrient_ok (some 100) r.fat_100g ∧
  nutrient_ok Option.none r.saturated_fat_100g ∧
  nutrient_ok (some 100) r.carbohydrates_100g ∧
  nutrient_ok Option.none r.sugars_100g ∧
  nutrient_ok Option.none r.fiber_100g ∧
  nutrient_ok (some 100) r.proteins_100g ∧
  nutrient_ok Option.none r.salt_100g

/-- Well-formedness of an `ingredients_tags` cell for the counting loop:
when it is a list, every element is a string. -/
def tags_ok : PyVal → Bool
  | .list ts => ts.all (fun t => t matches PyVal.str _)
  | _ => true

/-- Well-formedness of a text-bearing cell for the amended claim C3: the
cell is a string or absent, so a column of such cells is accepted by the
pandas `.str` accessor. -/
def text_or_absent : PyVal → Bool
  | PyVal.none => true
  | PyVal.str _ => true
  | _ => false

/-- Validity of a stored grade cell under the amended claim C6: absent, a
valid lowercase grade letter, or a falsy raw value that skipped
validation. -/
def grade_cell_ok (v : PyVal) : Prop :=
  v = PyVal.none ∨
    (∃ s, v = PyVal.str s ∧ (s = "a" ∨ s = "b" ∨ s = "c" ∨ s = "d" ∨ s = "e")) ∨
    truthy v = false

/-! ### Concrete example inputs -/

/-- The spec's unit-correction example record: a name, and the only energy
datum under the generic `energy_100g` key with value 1800. -/
def bar1800_record : PyDict :=
  [("product_name", PyVal.str "Bar"),
   ("nutriments", PyVal.dict [("energy_100g", PyVal.num 1800)])]

/-- The envelope holding just the unit-correction example record. -/
def bar1800_json : PyDict :=
  [("products", PyVal.list [PyVal.dict bar1800_record])]

/-- A record whose grade field carries the non-string value 5. -/
def grade5_record : PyDict :=
  [("product_name", PyVal.str "Bar"),
   ("nutrition_grade_fr", PyVal.num 5)]

/-- A well-formed envelope holding one record whose grade field carries the
non-string value 5. -/
def grade5_json : PyDict :=
  [("products", PyVal.list [PyVal.dict grade5_record])]

/-- The spec's dropped-record example: a grade and an energy value but no
name and no barcode. -/
def dropped_record : PyDict :=
  [("nutrition_grade_fr", PyVal.str "A"),
   ("nutriments", PyVal.dict [("energy_100g", PyVal.num 1800)])]

/-- The envelope holding just the dropped-record example. -/
def dropped_json : PyDict :=
  [("products", PyVal.list [PyVal.dict dropped_record])]

/-- A record whose fallback grade field holds the falsy non-string 0 and
which carries a valid grade under the alternate-named key `ecoscore`. -/
def falsy_grade_record : PyDict :=
  [("product_name", PyVal.str "Bar"),
   ("nutrition_grades", PyVal.num 0),
   ("ecoscore", PyVal.str "a")]

/-- A record whose kcal-denominated energy field is present but 0 and whose
generic energy field holds 500. -/
def zero_kcal_record : PyDict :=
  [("product_name", PyVal.str "Bar"),
   ("nutriments", PyVal.dict
     [("energy-kcal_100g", PyVal.num 0), ("energy_100g", PyVal.num 500)])]

/-- A row with every cell absent, for building concrete examples. -/
def blank_row : Row :=
  { product_name := PyVal.none, brands := PyVal.none, categories := PyVal.none,
    countries := PyVal.none, nutriscore := PyVal.none, ecoscore := PyVal.none,
    ingredients_text := PyVal.none, ingredients_tags := PyVal.none,
    barcode := PyVal.none, energy_100g_kcal := PyVal.none, fat_100g := PyVal.none,
    saturated_fat_100g := PyVal.none, carbohydrates_100g := PyVal.none,
    sugars_100g := PyVal.none, fiber_100g := PyVal.none, proteins_100g := PyVal.none,
    salt_100g := PyVal.none, image_url := PyVal.none }

/-- A named row carrying the single ingredient tag `en:b/c`, whose display
form separates claim C7's slash reading from the source's behaviour. -/
def slash_tag_row : Row :=
  { blank_row with
    product_name := PyVal.str "Bar",
    ingredients_tags := PyVal.list [PyVal.str "en:b/c"] }

/-- The envelope holding just `falsy_grade_record`. -/
def falsy_grade_json : PyDict :=
  [("products", PyVal.list [PyVal.dict falsy_grade_record])]

/-- The row the pipeline builds from `falsy_grade_record`: the falsy raw
grade 0 is stored in the nutriscore cell, and the ecoscore cell is absent
even though the record carries a valid grade under the alternate key. -/
def falsy_grade_row : Row :=
  { blank_row with product_name := PyVal.str "Bar", nutriscore := PyVal.num 0 }

/-- The row the pipeline builds from `bar1800_record`: retained (the name
is present) with the out-of-bound energy value made absent. -/
def bar1800_row : Row :=
  { blank_row with product_name := PyVal.str "Bar" }

/-- The pre-coercion row `normalize_record` builds from `bar1800_record`:
the generic-field energy value 1800 is still raw. -/
def bar1800_pre_row : Row :=
  { blank_row with
    product_name := PyVal.str "Bar"
    energy_100g_kcal := PyVal.num 1800 }

/-- The nutriments dict of `bar1800_record`. -/
def bar1800_nutr : PyDict :=
  [("energy_100g", PyVal.num 1800)]

/-- A record with a present brand and the raw falsy grade 0: its built row
makes the brand group's nutriscore series uniformly numeric, which the
pandas `.str` accessor rejects. -/
def acme_zero_record : PyDict :=
  [("product_name", PyVal.str "x"),
   ("brands", PyVal.str "Acme"),
   ("nutrition_grades", PyVal.num 0)]

/-- The envelope holding just `acme_zero_record`. -/
def acme_zero_json : PyDict :=
  [("products", PyVal.list [PyVal.dict acme_zero_record])]

/-- The row the pipeline builds from `acme_zero_record`. -/
def acme_zero_row : Row :=
  { blank_row with
    product_name := PyVal.str "x"
    brands := PyVal.str "Acme"
    nutriscore := PyVal.num 0 }

/-- A named, branded row with a valid lowercase grade, for witnessing the
brand-summary totality on a well-formed table. -/
def acme_a_row : Row :=
  { blank_row with
    product_name := PyVal.str "x"
    brands := PyVal.str "Acme, Inc"
    nutriscore := PyVal.str "a" }

/-- The pre-coercion row `normalize_record` builds from `zero_kcal_record`:
the falsy kcal reading was discarded in favour of the generic field. -/
def zero_kcal_row : Row :=
  { blank_row with
    product_name := PyVal.str "Bar"
    energy_100g_kcal := PyVal.num 500 }

/-- The nutriments dict of `zero_kcal_record`. -/
def zero_kcal_nutr : PyDict :=
  [("energy-kcal_100g", PyVal.num 0), ("energy_100g", PyVal.num 500)]

/-! ### Helper lemmas: the `Except` monad -/

@[simp] theorem ok_bind {α β : Type} (a : α) (f : α → Except PyErr β) :
    (Except.ok a >>= f) = f a := rfl

@[simp] theorem error_bind {α β : Type} (e : PyErr) (f : α → Except PyErr β) :
    ((Except.error e : Except PyErr α) >>= f) = Except.error e := rfl

@[simp] theorem pure_eq_ok {α : Type} (a : α) : (pure a : Except PyErr α) = Except.ok a := rfl

theorem ebind_ok {α β : Type} {x : Except PyErr α} {f : α → Except PyErr β} {b : β} :
    x >>= f = Except.ok b ↔ ∃ a, x = Except.ok a ∧ f a = Except.ok b := by
  cases x with
  | error e =>
      rw [error_bind]
      constructor
      · intro h; exact absurd h (by simp)
      · rintro ⟨a, ha, h2⟩; exact absurd ha (by simp)
  | ok a =>
      rw [ok_bind]
      constructor
      · intro h; exact ⟨a, rfl, h⟩
      · rintro ⟨a2, ha, h2⟩
        obtain rfl : a = a2 := by injection ha
        exact h2

/-! ### Helper lemmas: text cleaning and truthiness -/

theorem strip_empty : py_strip "" = "" := rfl

theorem clean_ok_truthy {v w : PyVal} (h : clean_text_field v = Except.ok w) :
    truthy w = present_text v := by
  cases v with
  | none =>
      simp [clean_text_field, pd_isna] at h
      subst h; rfl
  | str s =>
      by_cases hs : py_strip s = ""
      · simp [clean_text_field, pd_isna, hs] at h
        subst h
        simp [truthy, present_text, hs]
      · simp [clean_text_field, pd_isna, hs] at h
        subst h
        have hne : s ≠ "" := by
          intro h0
          rw [h0] at hs
          exact hs strip_empty
        simp [truthy, present_text, hs, hne]
  | bool b =>
      simp [clean_text_field, pd_isna] at h
      subst h; rfl
  | num q =>
      simp [clean_text_field, pd_isna] at h
      subst h; rfl
  | list l =>
      simp [clean_text_field, pd_isna] at h
  | dict d =>
      simp [clean_text_field, pd_isna] at h
      subst h; rfl

theorem truthy_py_or (a b : PyVal) :
    truthy (py_or a b) = (truthy a || truthy b) := by
  rw [py_or]
  by_cases h : truthy a = true
  · simp [h]
  · simp only [Bool.not_eq_true] at h
    simp [h]

/-! ### Helper lemmas: the stable insertion sort -/

theorem mem_insert_by {α : Type} {le : α → α → Bool} {a x : α} :
    ∀ {l : List α}, x ∈ insert_by le a l ↔ x = a ∨ x ∈ l := by
  intro l
  induction l with
  | nil => simp [insert_by]
  | cons b rest ih =>
      rw [insert_by]
      split
      · simp [or_comm, or_assoc, or_left_comm]
      · simp only [List.mem_cons, ih]
        tauto

theorem insert_by_perm {α : Type} (le : α → α → Bool) (a : α) :
    ∀ (l : List α), List.Perm (insert_by le a l) (a :: l) := by
  intro l
  induction l with
  | nil => exact List.Perm.refl _
  | cons b rest ih =>
      rw [insert_by]
      split
      · exact List.Perm.refl _
      · exact (ih.cons b).trans (List.Perm.swap a b rest)

theorem sort_by_perm {α : Type} (le : α → α → Bool) :
    ∀ (l : List α), List.Perm (sort_by le l) l := by
  intro l
  induction l with
  | nil => exact List.Perm.refl _
  | cons x xs ih =>
      rw [sort_by]
      exact (insert_by_perm le x (sort_by le xs)).trans (ih.cons x)

theorem mem_sort_by {α : Type} {le : α → α → Bool} {x : α} {l : List α} :
    x ∈ sort_by le l ↔ x ∈ l :=
  (sort_by_perm le l).mem_iff

theorem pairwise_insert_by {α : Type} {le : α → α → Bool}
    (htot : ∀ a b, le a b = true ∨ le b a = true)
    (htrans : ∀ a b c, le a b = true → le b c = true → le a c = true) :
    ∀ {l : List α} {a : α}, l.Pairwise (fun x y => le x y = true) →
      (insert_by le a l).Pairwise (fun x y => le x y = true) := by
  intro l
  induction l with
  | nil =>
      intro a _
      simp [insert_by]
  | cons b rest ih =>
      intro a hp
      rw [List.pairwise_cons] at hp
      obtain ⟨hb, hrest⟩ := hp
      rw [insert_by]
      split
      case isTrue hab =>
        refine List.Pairwise.cons ?_ (List.Pairwise.cons hb hrest)
        intro z hz
        rcases List.mem_cons.mp hz with rfl | hz2
        · exact hab
        · exact htrans a b z hab (hb z hz2)
      case isFalse hab =>
        have hba : le b a = true := by
          rcases htot a b with h1 | h1
          · exact absurd h1 hab
          · exact h1
        refine List.Pairwise.cons ?_ (ih hrest)
        intro z hz
        rcases mem_insert_by.mp hz with rfl | hz2
        · exact hba
        · exact hb z hz2

theorem pairwise_sort_by {α : Type} {le : α → α → Bool}
    (htot : ∀ a b, le a b = true ∨ le b a = true)
    (htrans : ∀ a b c, le a b = true → le b c = true → le a c = true) :
    ∀ (l : List α), (sort_by le l).Pairwise (fun x y => le x y = true) := by
  intro l
  induction l with
  | nil => simp [sort_by]
  | cons x xs ih =>
      rw [sort_by]
      exact pairwise_insert_by htot htrans ih

/-! ### Helper lemmas: first-occurrence deduplication -/

theorem mem_first_dedup {x : String} :
    ∀ {xs seen : List String}, x ∈ first_dedup seen xs → x ∉ seen ∧ x ∈ xs := by
  intro xs
  induction xs with
  | nil => intro seen h; exact absurd h (by simp [first_dedup])
  | cons y ys ih =>
      intro seen h
      rw [first_dedup] at h
      split at h
      · obtain ⟨h1, h2⟩ := ih h
        exact ⟨h1, List.mem_cons_of_mem _ h2⟩
      · rcases List.mem_cons.mp h with rfl | h2
        · next hy => exact ⟨hy, List.mem_cons_self _ _⟩
        · obtain ⟨h1, h2corr⟩ := ih h2
          constructor
          · intro hx
            exact h1 (List.mem_cons_of_mem _ hx)
          · exact List.mem_cons_of_mem _ h2corr

theorem nodup_first_dedup : ∀ {xs seen : List String}, (first_dedup seen xs).Nodup := by
  intro xs
  induction xs with
  | nil => intro seen; simp [first_dedup]
  | cons y ys ih =>
      intro seen
      rw [first_dedup]
      split
      · exact ih
      · refine List.Nodup.cons ?_ ih
        intro hy
        exact absurd (List.mem_cons_self y seen) (mem_first_dedup hy).1

theorem first_dedup_congr :
    ∀ {xs s1 s2 : List String}, (∀ a, a ∈ s1 ↔ a ∈ s2) →
      first_dedup s1 xs = first_dedup s2 xs := by
  intro xs
  induction xs with
  | nil => intro s1 s2 _; rfl
  | cons y ys ih =>
      intro s1 s2 hiff
      rw [first_dedup, first_dedup]
      by_cases hy : y ∈ s1
      · rw [if_pos hy, if_pos ((hiff y).mp hy)]
        exact ih hiff
      · rw [if_neg hy, if_neg (fun h => hy ((hiff y).mpr h))]
        refine congrArg (y :: ·) (ih ?_)
        intro a
        simp only [List.mem_cons]
        constructor
        · rintro (rfl | h)
          · exact Or.inl rfl
          · exact Or.inr ((hiff a).mp h)
        · rintro (rfl | h)
          · exact Or.inl rfl
          · exact Or.inr ((hiff a).mpr h)

/-! ### Helper lemmas: `mapM` over `Except` -/

theorem mapM_ok_of_forall {α β : Type} {f : α → Except PyErr β} :
    ∀ {l : List α}, (∀ a ∈ l, ∃ b, f a = Except.ok b) →
      ∃ bs, l.mapM f = Except.ok bs := by
  intro l
  induction l with
  | nil => intro _; exact ⟨[], rfl⟩
  | cons a rest ih =>
      intro h
      obtain ⟨b, hb⟩ := h a (List.mem_cons_self a rest)
      obtain ⟨bs, hbs⟩ := ih (fun x hx => h x (List.mem_cons_of_mem _ hx))
      refine ⟨b :: bs, ?_⟩
      rw [List.mapM_cons, hb, hbs]
      rfl

/-! ### Helper lemmas: Counter accumulation equals occurrence tally -/

theorem counter_add_not_mem {c : List (String × Nat)} {k : String}
    (h : k ∉ c.map Prod.fst) : counter_add c k = c ++ [(k, 1)] := by
  induction c with
  | nil => rfl
  | cons p rest ih =>
      obtain ⟨k1, v⟩ := p
      simp only [List.map_cons, List.mem_cons, not_or] at h
      obtain ⟨h1, h2⟩ := h
      rw [counter_add, if_neg (fun he => h1 he.symm)]
      rw [ih h2]
      rfl

theorem counter_add_mem {c : List (String × Nat)} {k : String}
    (hnd : (c.map Prod.fst).Nodup) (h : k ∈ c.map Prod.fst) :
    counter_add c k = c.map (fun p => if p.1 = k then (p.1, p.2 + 1) else p) := by
  induction c with
  | nil => simp at h
  | cons p rest ih =>
      obtain ⟨k1, v⟩ := p
      rw [List.map_cons] at hnd h
      rw [counter_add, List.map_cons]
      by_cases he : k1 = k
      · subst he
        rw [if_pos rfl]
        have hk1 : k1 ∉ rest.map Prod.fst := (List.nodup_cons.mp hnd).1
        have hrest : rest.map (fun p : String × Nat => if p.1 = k1 then (p.1, p.2 + 1) else p)
            = rest := by
          have hpt : ∀ p ∈ rest, (if p.1 = k1 then (p.1, p.2 + 1) else p) = p := by
            intro p hp
            rw [if_neg]
            intro hpe
            exact hk1 (hpe ▸ List.mem_map_of_mem Prod.fst hp)
          calc rest.map (fun p : String × Nat => if p.1 = k1 then (p.1, p.2 + 1) else p)
              = rest.map id := List.map_congr_left (fun p hp => hpt p hp)
            _ = rest := List.map_id rest
        rw [hrest]
        simp
      · rcases List.mem_cons.mp h with rfl | hk
        · exact absurd rfl he
        · rw [if_neg he, ih (List.nodup_cons.mp hnd).2 hk]
          have : (if k1 = k then (k1, v + 1) else (k1, v)) = (k1, v) := if_neg he
          rw [this]

theorem keys_map_fst_bump (c : List (String × Nat)) (x : String) :
    (c.map (fun p => if p.1 = x then (p.1, p.2 + 1) else p)).map Prod.fst = c.map Prod.fst := by
  rw [List.map_map]
  refine List.map_congr_left ?_
  intro p _
  by_cases hp : p.1 = x <;> simp [hp]

theorem foldl_counter_general :
    ∀ (xs : List String) (c : List (String × Nat)), (c.map Prod.fst).Nodup →
      xs.foldl counter_add c =
        c.map (fun p => (p.1, p.2 + xs.count p.1)) ++
          (first_dedup (c.map Prod.fst) xs).map (fun k => (k, xs.count k)) := by
  intro xs
  induction xs with
  | nil =>
      intro c hnd
      simp [first_dedup]
  | cons x rest ih =>
      intro c hnd
      rw [List.foldl_cons]
      by_cases hx : x ∈ c.map Prod.fst
      · rw [counter_add_mem hnd hx]
        have hnd2 :
            ((c.map (fun p => if p.1 = x then (p.1, p.2 + 1) else p)).map Prod.fst).Nodup := by
          rw [keys_map_fst_bump]; exact hnd
        rw [ih _ hnd2, keys_map_fst_bump]
        rw [first_dedup, if_pos hx]
        congr 1
        · rw [List.map_map]
          refine List.map_congr_left ?_
          intro p _
          obtain ⟨k1, v⟩ := p
          by_cases hpx : k1 = x
          · subst hpx
            simp only [Function.comp_apply, eq_self_iff_true, if_true, List.count_cons_self]
            refine congrArg (fun n => (k1, n)) ?_
            omega
          · simp only [Function.comp_apply, if_neg hpx]
            refine congrArg (fun n => (k1, v + n)) ?_
            rw [List.count_cons_of_ne]
            intro he
            exact hpx (by simpa using he)
        · refine List.map_congr_left ?_
          intro k hk
          have hknot := (mem_first_dedup hk).1
          have hkx : k ≠ x := fun he => hknot (he ▸ hx)
          refine congrArg (fun n => (k, n)) ?_
          rw [List.count_cons_of_ne]
          intro he
          exact hkx (by simpa using he)
      · rw [counter_add_not_mem hx]
        have hnd2 : ((c ++ [(x, 1)]).map Prod.fst).Nodup := by
          rw [List.map_append]
          rw [List.nodup_append]
          refine ⟨hnd, by simp, ?_⟩
          intro a ha
          simp only [List.map_cons, List.map_nil, List.mem_singleton]
          intro hb
          rw [hb] at ha
          exact hx ha
        rw [ih _ hnd2]
        have hkeys : (c ++ [(x, 1)]).map Prod.fst = c.map Prod.fst ++ [x] :=
          List.map_append _ _ _
        rw [hkeys]
        have hfd : first_dedup (c.map Prod.fst ++ [x]) rest
            = first_dedup (x :: c.map Prod.fst) rest := by
          refine first_dedup_congr ?_
          intro a
          simp only [List.mem_append, List.mem_singleton, List.mem_cons]
          tauto
        rw [hfd]
        rw [first_dedup, if_neg hx]
        simp only [List.map_append, List.map_cons, List.map_nil, List.append_assoc,
          List.singleton_append, List.nil_append]
        congr 1
        · refine List.map_congr_left ?_
          intro p hp
          have hpx : p.1 ≠ x := by
            intro he
            exact hx (he ▸ List.mem_map_of_mem Prod.fst hp)
          refine congrArg (fun n => (p.1, p.2 + n)) ?_
          rw [List.count_cons_of_ne]
          intro he
          exact hpx (by simpa using he)
        · refine congrArg₂ (· :: ·) ?_ ?_
          · refine congrArg (fun n => (x, n)) ?_
            rw [List.count_cons_self]
            omega
          · refine List.map_congr_left ?_
            intro k hk
            have hknot := (mem_first_dedup hk).1
            have hkx : k ≠ x := fun he => hknot (he ▸ List.mem_cons_self x _)
            refine congrArg (fun n => (k, n)) ?_
            rw [List.count_cons_of_ne]
            intro he
            exact hkx (by simpa using he)

theorem foldl_counter_eq_tally (xs : List String) :
    xs.foldl counter_add [] = tally xs := by
  have h := foldl_counter_general xs [] (by simp)
  simpa [tally] using h

/-! ### Helper lemmas: inverting a successful `normalize_record` -/

theorem assembled_row_product_name (nutr : PyDict)
    (a b c d e f g t bc i : PyVal) :
    (assembled_row nutr a b c d e f g t bc i).product_name = a := rfl

theorem assembled_row_barcode (nutr : PyDict)
    (a b c d e f g t bc i : PyVal) :
    (assembled_row nutr a b c d e f g t bc i).barcode = bc := rfl

theorem assembled_row_nutriscore (nutr : PyDict)
    (a b c d e f g t bc i : PyVal) :
    (assembled_row nutr a b c d e f g t bc i).nutriscore = c := rfl

theorem assembled_row_ecoscore (nutr : PyDict)
    (a b c d e f g t bc i : PyVal) :
    (assembled_row nutr a b c d e f g t bc i).ecoscore = d := rfl

theorem assembled_row_energy (nutr : PyDict)
    (a b c d e f g t bc i : PyVal) :
    (assembled_row nutr a b c d e f g t bc i).energy_100g_kcal =
      py_or (dget nutr "energy-kcal_100g" PyVal.none) (dget nutr "energy_100g" PyVal.none) := rfl

theorem normalize_record_ok_inv {p : PyDict} {o : Option Row}
    (h : normalize_record p = Except.ok o) :
    ∃ nutr pn1 product_name brands ns1 ns2 nutriscore eco1 ecoscore categories
      countries ingredients_text barcode img1 image_url,
      get_nutriments p = Except.ok nutr ∧
      cfield p "product_name" = Except.ok pn1 ∧
      (if truthy pn1 then Except.ok pn1 else cfield p "generic_name") = Except.ok product_name ∧
      cfield p "brands" = Except.ok brands ∧
      cfield p "nutrition_grade_fr" = Except.ok ns1 ∧
      (if truthy ns1 then Except.ok ns1 else cfield p "nutrition_grades") = Except.ok ns2 ∧
      validate_grade ns2 = Except.ok nutriscore ∧
      cfield p "ecoscore_grade" = Except.ok eco1 ∧
      validate_grade eco1 = Except.ok ecoscore ∧
      cfield p "categories" = Except.ok categories ∧
      cfield p "countries" = Except.ok countries ∧
      cfield p "ingredients_text" = Except.ok ingredients_text ∧
      cfield p "code" = Except.ok barcode ∧
      cfield p "image_front_small_url" = Except.ok img1 ∧
      (if truthy img1 then Except.ok img1 else cfield p "image_url") = Except.ok image_url ∧
      o = (if truthy product_name || truthy barcode then
            some (assembled_row nutr product_name brands nutriscore ecoscore categories
              countries ingredients_text (dget p "ingredients_tags" PyVal.none) barcode
              image_url)
          else Option.none) := by
  rw [normalize_record] at h
  simp only [ebind_ok, pure_eq_ok] at h
  obtain ⟨nutr, hnutr, pn1, hpn1, pname, hpname, brands, hbrands, ns1, hns1, ns2, hns2,
    nsc, hnsc, eco1, heco1, eco, heco, cat, hcat, cou, hcou, ing, hing, bar, hbar,
    img1, himg1, img, himg, hfin⟩ := h
  refine ⟨nutr, pn1, pname, brands, ns1, ns2, nsc, eco1, eco, cat, cou, ing, bar,
    img1, img, hnutr, hpn1, hpname, hbrands, hns1, hns2, hnsc, heco1, heco, hcat,
    hcou, hing, hbar, himg1, himg, ?_⟩
  simp only [assembled_row_product_name, assembled_row_barcode] at hfin
  by_cases hc : (truthy pname || truthy bar) = true
  · rw [if_pos hc] at hfin
    rw [if_pos hc]
    injection hfin with hfin2
    exact hfin2.symm
  · rw [if_neg hc] at hfin
    rw [if_neg hc]
    injection hfin with hfin2
    exact hfin2.symm

/-- A successful normalization keeps the record exactly when the spec-side
presence test does: a name (with generic-name fallback) or a barcode. -/
theorem kept_iff {p : PyDict} {o : Option Row}
    (h : normalize_record p = Except.ok o) : o.isSome = claim_keeps p := by
  obtain ⟨nutr, pn1, pname, brands, ns1, ns2, nsc, eco1, eco, cat, cou, ing, bar,
    img1, img, hnutr, hpn1, hpname, hbrands, hns1, hns2, hnsc, heco1, heco, hcat,
    hcou, hing, hbar, himg1, himg, ho⟩ := normalize_record_ok_inv h
  have hbart : truthy bar = present_text (dget p "code" PyVal.none) :=
    clean_ok_truthy hbar
  have hpn1t : truthy pn1 = present_text (dget p "product_name" PyVal.none) :=
    clean_ok_truthy hpn1
  have hnamet : truthy pname =
      (present_text (dget p "product_name" PyVal.none)
        || present_text (dget p "generic_name" PyVal.none)) := by
    by_cases h1 : truthy pn1 = true
    · rw [if_pos h1] at hpname
      injection hpname with hp2
      subst hp2
      rw [h1, ← hpn1t, h1, Bool.true_or]
    · simp only [Bool.not_eq_true] at h1
      rw [h1] at hpname
      simp only [Bool.false_eq_true, if_false] at hpname
      rw [clean_ok_truthy hpname, ← hpn1t, h1, Bool.false_or]
  subst ho
  by_cases hc : (truthy pname || truthy bar) = true
  · rw [if_pos hc]
    have : claim_keeps p = true := by
      rw [claim_keeps, ← hnamet, ← hbart]
      exact hc
    rw [this]
    rfl
  · rw [if_neg hc]
    simp only [Bool.not_eq_true] at hc
    have : claim_keeps p = false := by
      rw [claim_keeps, ← hnamet, ← hbart]
      exact hc
    rw [this]
    rfl

/-! ### Helper lemmas: the Dataset Builder -/

theorem build_rows_count :
    ∀ (ps : List PyDict), (∀ p ∈ ps, ∃ o, normalize_record p = Except.ok o) →
      ∃ rs, build_rows (ps.map PyVal.dict) = Except.ok rs ∧
        rs.length = ps.countP claim_keeps := by
  intro ps
  induction ps with
  | nil => intro _; exact ⟨[], rfl, by simp⟩
  | cons p rest ih =>
      intro h
      obtain ⟨o, ho⟩ := h p (List.mem_cons_self p rest)
      obtain ⟨rs, hrs, hlen⟩ := ih (fun q hq => h q (List.mem_cons_of_mem _ hq))
      have hkeep := kept_iff ho
      rw [List.map_cons]
      cases o with
      | some r =>
          refine ⟨r :: rs, ?_, ?_⟩
          · rw [build_rows]
            simp [as_dict, ho, hrs]
          · have hck : claim_keeps p = true := by rw [← hkeep]; rfl
            rw [List.countP_cons, hck]
            simp [hlen]
      | none =>
          refine ⟨rs, ?_, ?_⟩
          · rw [build_rows]
            simp [as_dict, ho, hrs]
          · have hck : claim_keeps p = false := by rw [← hkeep]; rfl
            rw [List.countP_cons, hck]
            simp [hlen]

/-- Inversion of a successful `normalize_products_json`: either the
`products` value was falsy and the frame is the column-less empty one, or
at least one row survived and the frame is the coerced and filtered
table. -/
theorem npj_ok_inv {j : PyDict} {df : DataFrame}
    (h : normalize_products_json j = Except.ok df) :
    (truthy (dget j "products" (PyVal.list [])) = false ∧ df = DataFrame.empty) ∨
      (∃ products rows,
        dget j "products" (PyVal.list []) = PyVal.list products ∧
        build_rows products = Except.ok rows ∧
        rows.isEmpty = false ∧
        df = DataFrame.table (rows.map coerce_filter_row)) := by
  rw [normalize_products_json] at h
  by_cases ht : truthy (dget j "products" (PyVal.list [])) = true
  · rw [if_pos ht] at h
    simp only [ebind_ok] at h
    obtain ⟨products, hm, h2⟩ := h
    have hl : dget j "products" (PyVal.list []) = PyVal.list products := by
      cases hv : dget j "products" (PyVal.list []) <;> rw [hv] at hm <;>
        simp_all [as_list]
    obtain ⟨rows, hbr, h3⟩ := h2
    by_cases he : rows.isEmpty = true
    · rw [if_pos he] at h3
      exact absurd h3 (by simp)
    · rw [if_neg he] at h3
      simp only [pure_eq_ok, Except.ok.injEq] at h3
      right
      refine ⟨products, rows, hl, hbr, ?_, h3.symm⟩
      simpa using he
  · rw [if_neg ht] at h
    simp only [pure_eq_ok, Except.ok.injEq] at h
    left
    exact ⟨by simpa using ht, h.symm⟩

/-! ### Helper lemmas: the plausibility filter -/

theorem filter_keeps_or_none (col : String) (v : PyVal) :
    filter_nutrient col v = PyVal.none ∨ filter_nutrient col v = v := by
  cases v with
  | num q =>
      rw [filter_nutrient]
      split
      · exact Or.inl rfl
      · split
        · exact Or.inl rfl
        · split
          · exact Or.inl rfl
          · exact Or.inr rfl
  | none => exact Or.inl rfl
  | bool b => exact Or.inl rfl
  | str s => exact Or.inl rfl
  | list l => exact Or.inl rfl
  | dict d => exact Or.inl rfl

theorem filter_energy_bounds (v : PyVal) :
    nutrient_ok (some 900) (filter_nutrient "energy_100g_kcal" v) := by
  cases v with
  | num q =>
      rw [filter_nutrient]
      by_cases h0 : q < 0
      · rw [if_pos h0]; exact Or.inl rfl
      · rw [if_neg h0]
        by_cases h9 : (900 : ℚ) < q
        · rw [if_pos ⟨rfl, h9⟩]; exact Or.inl rfl
        · rw [if_neg (fun hc => h9 hc.2)]
          rw [if_neg (fun hc => by
            rcases hc.1 with h | h | h <;> exact absurd h (by decide))]
          exact Or.inr ⟨q, rfl, le_of_not_lt h0, fun b hb => by
            injection hb with hb2
            rw [← hb2]
            exact le_of_not_lt h9⟩
  | none => exact Or.inl rfl
  | bool b => exact Or.inl rfl
  | str s => exact Or.inl rfl
  | list l => exact Or.inl rfl
  | dict d => exact Or.inl rfl

theorem filter_hundred_bounds (col : String)
    (hcol : col = "fat_100g" ∨ col = "carbohydrates_100g" ∨ col = "proteins_100g")
    (v : PyVal) :
    nutrient_ok (some 100) (filter_nutrient col v) := by
  have hne : ¬(col = "energy_100g_kcal") := by
    rcases hcol with h | h | h <;> rw [h] <;> decide
  cases v with
  | num q =>
      rw [filter_nutrient]
      by_cases h0 : q < 0
      · rw [if_pos h0]; exact Or.inl rfl
      · rw [if_neg h0, if_neg (fun hc => hne hc.1)]
        by_cases h1 : (100 : ℚ) < q
        · rw [if_pos ⟨hcol, h1⟩]; exact Or.inl rfl
        · rw [if_neg (fun hc => h1 hc.2)]
          exact Or.inr ⟨q, rfl, le_of_not_lt h0, fun b hb => by
            injection hb with hb2
            rw [← hb2]
            exact le_of_not_lt h1⟩
  | none => exact Or.inl rfl
  | bool b => exact Or.inl rfl
  | str s => exact Or.inl rfl
  | list l => exact Or.inl rfl
  | dict d => exact Or.inl rfl

theorem filter_nonneg_bounds (col : String)
    (hne : ¬(col = "energy_100g_kcal"))
    (hn3 : ¬(col = "fat_100g" ∨ col = "carbohydrates_100g" ∨ col = "proteins_100g"))
    (v : PyVal) :
    nutrient_ok Option.none (filter_nutrient col v) := by
  cases v with
  | num q =>
      rw [filter_nutrient]
      by_cases h0 : q < 0
      · rw [if_pos h0]; exact Or.inl rfl
      · rw [if_neg h0, if_neg (fun hc => hne hc.1), if_neg (fun hc => hn3 hc.1)]
        exact Or.inr ⟨q, rfl, le_of_not_lt h0, fun b hb => by injection hb⟩
  | none => exact Or.inl rfl
  | bool b => exact Or.inl rfl
  | str s => exact Or.inl rfl
  | list l => exact Or.inl rfl
  | dict d => exact Or.inl rfl

theorem filter_nonneg_keeps (col : String)
    (hne : ¬(col = "energy_100g_kcal"))
    (hn3 : ¬(col = "fat_100g" ∨ col = "carbohydrates_100g" ∨ col = "proteins_100g"))
    {q : ℚ} (hq : 0 ≤ q) :
    filter_nutrient col (PyVal.num q) = PyVal.num q := by
  rw [filter_nutrient]
  rw [if_neg (not_lt.mpr hq), if_neg (fun hc => hne hc.1), if_neg (fun hc => hn3 hc.1)]

theorem coerce_filter_row_bounds (r : Row) : row_bounds (coerce_filter_row r) := by
  refine ⟨filter_energy_bounds _, filter_hundred_bounds _ (Or.inl rfl) _,
    filter_nonneg_bounds _ (by decide) (by decide) _,
    filter_hundred_bounds _ (Or.inr (Or.inl rfl)) _,
    filter_nonneg_bounds _ (by decide) (by decide) _,
    filter_nonneg_bounds _ (by decide) (by decide) _,
    filter_hundred_bounds _ (Or.inr (Or.inr rfl)) _,
    filter_nonneg_bounds _ (by decide) (by decide) _⟩

/-! ### Helper lemmas: grade validation outcomes -/

theorem validate_grade_falsy {g w : PyVal} (ht : ¬(truthy g = true))
    (h : validate_grade g = Except.ok w) : grade_cell_ok w := by
  rw [validate_grade.eq_def, if_neg ht] at h
  injection h with h2
  subst h2
  exact Or.inr (Or.inr (by simpa using ht))

theorem validate_grade_ok_cases {g w : PyVal} (h : validate_grade g = Except.ok w) :
    grade_cell_ok w := by
  cases g with
  | str s =>
      by_cases ht : truthy (PyVal.str s) = true
      · rw [validate_grade.eq_def, if_pos ht] at h
        simp only at h
        split at h
        · injection h with h2
          subst h2
          next hcond => exact Or.inr (Or.inl ⟨py_lower s, rfl, hcond⟩)
        · injection h with h2
          subst h2
          exact Or.inl rfl
      · exact validate_grade_falsy ht h
  | none =>
      by_cases ht : truthy PyVal.none = true
      · rw [validate_grade.eq_def, if_pos ht] at h
        simp at h
      · exact validate_grade_falsy ht h
  | bool b =>
      by_cases ht : truthy (PyVal.bool b) = true
      · rw [validate_grade.eq_def, if_pos ht] at h
        simp at h
      · exact validate_grade_falsy ht h
  | num q =>
      by_cases ht : truthy (PyVal.num q) = true
      · rw [validate_grade.eq_def, if_pos ht] at h
        simp at h
      · exact validate_grade_falsy ht h
  | list l =>
      by_cases ht : truthy (PyVal.list l) = true
      · rw [validate_grade.eq_def, if_pos ht] at h
        simp at h
      · exact validate_grade_falsy ht h
  | dict d =>
      by_cases ht : truthy (PyVal.dict d) = true
      · rw [validate_grade.eq_def, if_pos ht] at h
        simp at h
      · exact validate_grade_falsy ht h

/-! ### Helper lemmas: ingredient counting -/

theorem row_tag_names_ok {v : PyVal} (h : tags_ok v = true) :
    ∃ ns, row_tag_names v = Except.ok ns := by
  cases v with
  | list ts =>
      rw [row_tag_names]
      by_cases he : ts.isEmpty = true
      · rw [if_pos he]; exact ⟨[], rfl⟩
      · rw [if_neg he]
        refine mapM_ok_of_forall ?_
        intro t ht
        simp only [tags_ok, List.all_eq_true] at h
        have h2 := h t ht
        cases t with
        | str s => exact ⟨s, rfl⟩
        | none => exact absurd h2 (by simp)
        | bool b => exact absurd h2 (by simp)
        | num q => exact absurd h2 (by simp)
        | list l2 => exact absurd h2 (by simp)
        | dict d2 => exact absurd h2 (by simp)
  | none => exact ⟨[], rfl⟩
  | bool b => exact ⟨[], rfl⟩
  | num q => exact ⟨[], rfl⟩
  | str s => exact ⟨[], rfl⟩
  | dict d => exact ⟨[], rfl⟩

theorem tag_display_names_ok {rows : List Row}
    (h : ∀ r ∈ rows, tags_ok r.ingredients_tags = true) :
    ∃ names, tag_display_names rows = Except.ok names := by
  obtain ⟨lists, hl⟩ :=
    mapM_ok_of_forall (fun r hr => row_tag_names_ok (h r hr))
  refine ⟨(lists.flatten.map display_form).filter keep_name, ?_⟩
  rw [tag_display_names, hl]
  rfl

theorem top_ingredients_table {rows : List Row}
    (h : ∀ r ∈ rows, tags_ok r.ingredients_tags = true) (n : Nat) :
    ∃ l, top_ingredients_from_df (DataFrame.table rows) n = Except.ok l ∧
      top_ingredients_claim rows n = Except.ok l ∧
      l.length ≤ n ∧
      l.Pairwise (fun a b => b.2 ≤ a.2) := by
  obtain ⟨names, hnames⟩ := tag_display_names_ok h
  refine ⟨most_common (names.foldl counter_add []) n, ?_, ?_, ?_, ?_⟩
  · rw [top_ingredients_from_df, hnames]
    rfl
  · rw [top_ingredients_claim, hnames, ok_bind, most_common, foldl_counter_eq_tally]
    rfl
  · rw [most_common]
    exact List.length_take_le n _
  · rw [most_common]
    refine List.Pairwise.sublist (List.take_sublist _ _) ?_
    have htot : ∀ a b : String × Nat,
        decide (b.2 ≤ a.2) = true ∨ decide (a.2 ≤ b.2) = true := by
      intro a b
      rcases Nat.le_total b.2 a.2 with h2 | h2
      · exact Or.inl (by simpa using h2)
      · exact Or.inr (by simpa using h2)
    have htrans : ∀ a b c : String × Nat,
        decide (b.2 ≤ a.2) = true → decide (c.2 ≤ b.2) = true →
          decide (c.2 ≤ a.2) = true := by
      intro a b c h1 h2
      have h1b : b.2 ≤ a.2 := of_decide_eq_true h1
      have h2b : c.2 ≤ b.2 := of_decide_eq_true h2
      simpa using le_trans h2b h1b
    have hp := pairwise_sort_by htot htrans (names.foldl counter_add [])
    exact hp.imp (fun hab => of_decide_eq_true hab)

/-! ### Helper lemmas: brand-summary totality on well-formed columns -/

theorem series_str_ok_of_text {cells : List PyVal}
    (h : ∀ v ∈ cells, text_or_absent v = true) : series_str_ok cells = true := by
  rw [series_str_ok]
  have hnn : ∀ v ∈ cells.filter (fun v => !(v matches PyVal.none)),
      ∃ s, v = PyVal.str s := by
    intro v hv
    have hv2 := List.mem_of_mem_filter hv
    have hv3 := h v hv2
    have hv4 := (List.mem_filter.mp hv).2
    cases v with
    | str s => exact ⟨s, rfl⟩
    | none => exact absurd hv4 (by simp)
    | bool b => exact absurd hv3 (by simp [text_or_absent])
    | num q => exact absurd hv3 (by simp [text_or_absent])
    | list l => exact absurd hv3 (by simp [text_or_absent])
    | dict d => exact absurd hv3 (by simp [text_or_absent])
  cases hne : cells.filter (fun v => !(v matches PyVal.none)) with
  | nil => rfl
  | cons v vs =>
      obtain ⟨s, hs⟩ := hnn v (by rw [hne]; exact List.mem_cons_self v vs)
      subst hs
      simp

theorem mem_of_mem_brands_kept {rows : List Row} {r : Row}
    (h : r ∈ brands_kept rows) : r ∈ rows := by
  rw [brands_kept, brands_notna] at h
  exact List.mem_of_mem_filter (List.mem_of_mem_filter h)

theorem mean_nutriscore_ok {grp : List Row}
    (h : series_str_ok (grp.map Row.nutriscore) = true) :
    ∃ m, mean_nutriscore grp = Except.ok m := by
  simp only [mean_nutriscore, nutriscore_to_numeric, if_pos h, ok_bind]
  exact ⟨_, rfl⟩

theorem brand_group_ok {rows : List Row}
    (hg : ∀ r ∈ rows, text_or_absent r.nutriscore = true) (k : String) :
    ∃ b, brand_group rows k = Except.ok b := by
  have hok : series_str_ok (((brands_kept rows).filter
      (fun r => row_pb r = some k)).map Row.nutriscore) = true := by
    refine series_str_ok_of_text ?_
    intro v hv
    obtain ⟨r, hr, rfl⟩ := List.mem_map.mp hv
    exact hg r (mem_of_mem_brands_kept (List.mem_of_mem_filter hr))
  obtain ⟨m, hm⟩ := mean_nutriscore_ok hok
  simp only [brand_group, hm, ok_bind]
  exact ⟨_, rfl⟩

theorem brand_summary_total {rows : List Row} (n : Nat)
    (hb : ∀ r ∈ rows, text_or_absent r.brands = true)
    (hg : ∀ r ∈ rows, text_or_absent r.nutriscore = true) :
    ∃ m, brand_summary (DataFrame.table rows) n = Except.ok m := by
  have hbok : series_str_ok ((brands_notna rows).map Row.brands) = true := by
    refine series_str_ok_of_text ?_
    intro v hv
    obtain ⟨r, hr, rfl⟩ := List.mem_map.mp hv
    rw [brands_notna] at hr
    exact hb r (List.mem_of_mem_filter hr)
  by_cases h1 : (brands_notna rows).isEmpty = true
  · refine ⟨[], ?_⟩
    simp only [brand_summary]
    rw [if_pos h1]
  · by_cases h2 : (brands_kept rows).isEmpty = true
    · refine ⟨[], ?_⟩
      simp only [brand_summary]
      rw [if_neg h1, if_pos hbok, if_pos h2]
    · obtain ⟨groups, hgroups⟩ := mapM_ok_of_forall
        (fun (k : String) (_ : k ∈ brand_keys rows) => brand_group_ok hg k)
      simp only [brand_summary, if_neg h1, if_pos hbok, if_neg h2, hgroups, ok_bind]
      exact ⟨_, rfl⟩

/-! ### Inversion of a kept record, shared by several claims -/

theorem normalize_record_some_inv {p : PyDict} {r : Row}
    (h : normalize_record p = Except.ok (some r)) :
    ∃ nutr ns1 ns2 eco1,
      get_nutriments p = Except.ok nutr ∧
      cfield p "nutrition_grade_fr" = Except.ok ns1 ∧
      (if truthy ns1 then Except.ok ns1 else cfield p "nutrition_grades") = Except.ok ns2 ∧
      validate_grade ns2 = Except.ok r.nutriscore ∧
      cfield p "ecoscore_grade" = Except.ok eco1 ∧
      validate_grade eco1 = Except.ok r.ecoscore ∧
      r.energy_100g_kcal = py_or (dget nutr "energy-kcal_100g" PyVal.none)
        (dget nutr "energy_100g" PyVal.none) := by
  obtain ⟨nutr, pn1, pname, brands, ns1, ns2, nsc, eco1, eco, cat, cou, ing, bar,
    img1, img, hnutr, hpn1, hpname, hbrands, hns1, hns2, hnsc, heco1, heco, hcat,
    hcou, hing, hbar, himg1, himg, ho⟩ := normalize_record_ok_inv h
  by_cases hc : (truthy pname || truthy bar) = true
  · rw [if_pos hc] at ho
    injection ho with ho2
    subst ho2
    refine ⟨nutr, ns1, ns2, eco1, hnutr, hns1, hns2, ?_, heco1, ?_, ?_⟩
    · rw [assembled_row_nutriscore]; exact hnsc
    · rw [assembled_row_ecoscore]; exact heco
    · rw [assembled_row_energy]
  · rw [if_neg hc] at ho
    exact absurd ho (by simp)

theorem coerce_filter_row_energy (r : Row) :
    (coerce_filter_row r).energy_100g_kcal
      = filter_nutrient "energy_100g_kcal" (to_numeric_coerce r.energy_100g_kcal) := rfl

/-! ### Claim theorems -/

/-- C1, counterexample. On the spec's own unit-correction example record
`{"product_name": "Bar", "nutriments": {"energy_100g": 1800}}` the Dataset
Builder applies no division by 4.184: the record is retained (the name is
present) but its energy cell is absent — the raw 1800 reached the
plausibility filter unconverted and was discarded as exceeding 900,
instead of yielding 1800/4.184 ≈ 430.3. -/
theorem C1_counterexample :
    normalize_products_json bar1800_json = Except.ok (DataFrame.table [bar1800_row]) ∧
    bar1800_row.energy_100g_kcal = PyVal.none ∧
    bar1800_row.product_name = PyVal.str "Bar" := ⟨rfl, rfl, rfl⟩

/-- C1, amended. The Dataset Builder applies no kilojoule-to-kilocalorie
unit correction: when the energy value comes from the ambiguous generic
field (the kcal-denominated field being absent or falsy) and exceeds 1000,
the value reaches the plausibility filter unchanged and, exceeding 900,
the built row's energy cell becomes absent. (The division by 4.184 exists
only in the barcode-lookup display path of the source, not in
`normalize_products_json`.) -/
theorem C1_no_unit_correction (p : PyDict) (r : Row) (nutr : PyDict) (q : ℚ)
    (h : normalize_record p = Except.ok (some r))
    (hn : get_nutriments p = Except.ok nutr)
    (hk : truthy (dget nutr "energy-kcal_100g" PyVal.none) = false)
    (hg : dget nutr "energy_100g" PyVal.none = PyVal.num q)
    (hq : 1000 < q) :
    r.energy_100g_kcal = PyVal.num q ∧
    (coerce_filter_row r).energy_100g_kcal = PyVal.none := by
  obtain ⟨nutr0, ns1, ns2, eco1, hn0, -, -, -, -, -, he⟩ := normalize_record_some_inv h
  rw [hn0] at hn
  injection hn with hn2
  subst hn2
  have h0q : (0 : ℚ) < q := lt_trans (by norm_num) hq
  have h9q : (900 : ℚ) < q := lt_trans (by norm_num) hq
  have hen : r.energy_100g_kcal = PyVal.num q := by
    rw [he, py_or, if_neg (by simp [hk]), hg]
  refine ⟨hen, ?_⟩
  rw [coerce_filter_row_energy, hen]
  show filter_nutrient "energy_100g_kcal" (PyVal.num q) = PyVal.none
  rw [filter_nutrient, if_neg (not_lt.mpr (le_of_lt h0q)), if_pos ⟨rfl, h9q⟩]

/-- C1, witness for the amended theorem, at the spec's example record: the
pre-coercion energy cell holds the raw 1800 and the built cell is
absent. -/
theorem C1_witness :
    bar1800_pre_row.energy_100g_kcal = PyVal.num 1800 ∧
    (coerce_filter_row bar1800_pre_row).energy_100g_kcal = PyVal.none :=
  C1_no_unit_correction bar1800_record bar1800_pre_row bar1800_nutr 1800
    rfl rfl rfl rfl (by decide)

/-- C2. The claim says a malformed field — for example a grade field
holding a non-string value — is resolved to absent for that field only and
the batch completes without raising. The code instead crashes: a
well-formed envelope whose record holds the integer 5 under
`nutrition_grade_fr` passes `clean_text_field` unchanged (5 is neither NA
nor a string), is truthy, and `.lower()` on an int raises
`AttributeError`, aborting the whole batch. This contradicts the source's
own stated intent ("Robust missing value handling", "only include valid
grades"), so the code, not the claim, is at fault. -/
theorem C2_grade_crash :
    normalize_products_json grade5_json = Except.error PyErr.attributeError ∧
    clean_text_field (PyVal.num 5) = Except.ok (PyVal.num 5) := ⟨rfl, rfl⟩

/-- C3, counterexample. Aggregation is not total over well-formed
Datasets. First, the Dataset built from an empty record sequence is the
column-less empty frame, and on it `top_ingredients_from_df` and
`brand_summary` raise `KeyError` from the column read instead of
returning an empty result. Second, even on a one-row table the pipeline
itself builds — from a record with brand `Acme` and the raw falsy grade 0
— `brand_summary` raises `AttributeError`: the group's nutriscore series
is uniformly numeric and the pandas `.str` accessor rejects it. -/
theorem C3_counterexample :
    normalize_products_json [("products", PyVal.list [])] = Except.ok DataFrame.empty ∧
    top_ingredients_from_df DataFrame.empty 20 = Except.error PyErr.keyError ∧
    brand_summary DataFrame.empty 10 = Except.error PyErr.keyError ∧
    normalize_products_json acme_zero_json = Except.ok (DataFrame.table [acme_zero_row]) ∧
    brand_summary (DataFrame.table [acme_zero_row]) 10 = Except.error PyErr.attributeError :=
  ⟨rfl, rfl, rfl, rfl, rfl⟩

/-- C3, amended. The aggregation operations are total over every Dataset
table whose columns are well formed for them — tag cells holding lists of
strings (or skipped values), and brands and nutriscore cells holding
strings or absent: `top_ingredients_from_df` and `brand_summary` return a
result there, and the completeness computation reports 0% for every field
when there are zero rows, by its explicit guard. Outside that, the
column-less empty frame makes the column reads raise `KeyError`, and a
brands column or a per-group nutriscore series whose values are uniformly
non-string makes the pandas `.str` accessor raise `AttributeError`. -/
theorem C3_total_on_tables (rows : List Row) (n : Nat)
    (htags : ∀ r ∈ rows, tags_ok r.ingredients_tags = true)
    (hb : ∀ r ∈ rows, text_or_absent r.brands = true)
    (hg : ∀ r ∈ rows, text_or_absent r.nutriscore = true) :
    (∃ l, top_ingredients_from_df (DataFrame.table rows) n = Except.ok l) ∧
    (∃ m, brand_summary (DataFrame.table rows) n = Except.ok m) ∧
    (∀ fr ∈ completeness_report [], fr.completeness = 0) := by
  refine ⟨?_, brand_summary_total n hb hg, ?_⟩
  · obtain ⟨l, hl, -, -, -⟩ := top_ingredients_table htags n
    exact ⟨l, hl⟩
  · intro fr hfr
    obtain ⟨fg, -, rfl⟩ := List.mem_map.mp hfr
    rfl

/-- C3, witness for the amended theorem at a two-row table with a tagged
product and a branded, graded product. -/
theorem C3_witness :
    (∃ l, top_ingredients_from_df (DataFrame.table [slash_tag_row, acme_a_row]) 20
      = Except.ok l) ∧
    (∃ m, brand_summary (DataFrame.table [slash_tag_row, acme_a_row]) 20
      = Except.ok m) ∧
    (∀ fr ∈ completeness_report [], fr.completeness = 0) :=
  C3_total_on_tables [slash_tag_row, acme_a_row] 20 (by decide) (by decide) (by decide)

/-- C4, counterexample. On the spec's own dropped-record example as the
only input record, every record is dropped, `pd.DataFrame([])` has no
columns, and the numeric-coercion loop's column read raises `KeyError`:
the builder returns no Dataset at all, so the promised equality of row
count with the (zero) count of identified records fails. -/
theorem C4_counterexample :
    normalize_products_json dropped_json = Except.error PyErr.keyError ∧
    normalize_record dropped_record = Except.ok Option.none ∧
    claim_keeps dropped_record = false := ⟨rfl, rfl, rfl⟩

/-- C4, amended. For every sequence of raw records that all normalize
without raising, a record with neither a name (product name or
generic-name fallback, present after trimming) nor a barcode produces no
row; and whenever at least one record carries a name or barcode, the built
Dataset's row count equals the number of input records with at least one
of the two present. (When no record qualifies and the sequence is
non-empty, the builder instead raises `KeyError`, as the counterexample
shows.) -/
theorem C4_row_count (ps : List PyDict)
    (h : ∀ p ∈ ps, ∃ o, normalize_record p = Except.ok o)
    (hq : 0 < ps.countP claim_keeps) :
    (∀ p ∈ ps, claim_keeps p = false → normalize_record p = Except.ok Option.none) ∧
    ∃ rs, normalize_products_json [("products", PyVal.list (ps.map PyVal.dict))]
        = Except.ok (DataFrame.table rs) ∧
      rs.length = ps.countP claim_keeps := by
  constructor
  · intro p hp hck
    obtain ⟨o, ho⟩ := h p hp
    have hio2 := kept_iff ho
    rw [hck] at hio2
    cases o with
    | some r => exact absurd hio2 (by simp)
    | none => exact ho
  · obtain ⟨rs0, hbr, hlen⟩ := build_rows_count ps h
    have hre : rs0.isEmpty = false := by
      cases rs0 with
      | nil =>
          rw [← hlen] at hq
          exact absurd hq (by simp)
      | cons a l => rfl
    refine ⟨rs0.map coerce_filter_row, ?_, by simpa using hlen⟩
    cases ps with
    | nil => exact absurd hq (by simp)
    | cons p0 ptl =>
        rw [show normalize_products_json
            [("products", PyVal.list ((p0 :: ptl).map PyVal.dict))]
            = (build_rows ((p0 :: ptl).map PyVal.dict) >>= fun rows =>
                if rows.isEmpty = true then Except.error PyErr.keyError
                else pure (DataFrame.table (rows.map coerce_filter_row))) from rfl]
        rw [hbr, ok_bind, if_neg (by simp [hre]), pure_eq_ok]

/-- C4, witness for the amended theorem: one identified record and one
record with neither name nor barcode give a one-row Dataset. -/
theorem C4_witness :
    (∀ p ∈ [bar1800_record, dropped_record], claim_keeps p = false →
        normalize_record p = Except.ok Option.none) ∧
    ∃ rs, normalize_products_json
        [("products", PyVal.list ([bar1800_record, dropped_record].map PyVal.dict))]
        = Except.ok (DataFrame.table rs) ∧
      rs.length = [bar1800_record, dropped_record].countP claim_keeps :=
  C4_row_count [bar1800_record, dropped_record]
    (by
      intro p hp
      rcases List.mem_cons.mp hp with rfl | hp2
      · exact ⟨some bar1800_pre_row, rfl⟩
      · rcases List.mem_cons.mp hp2 with rfl | hp3
        · exact ⟨Option.none, rfl⟩
        · exact absurd hp3 (by simp))
    (by decide)

/-- C5. In every built Dataset each nutrient cell is absent or within its
plausibility bound: non-negative always, at most 900 for energy, at most
100 for fat, carbohydrates and proteins, with no upper bound for saturated
fat, sugars, fiber and salt (any non-negative value is kept verbatim for
those columns); and the filter never clamps — its output is either absent
or the coerced input unchanged. -/
theorem C5_plausibility (j : PyDict) (df : DataFrame)
    (h : normalize_products_json j = Except.ok df) :
    (∀ rows, df = DataFrame.table rows → ∀ r ∈ rows, row_bounds r) ∧
    (∀ col v, filter_nutrient col v = PyVal.none ∨ filter_nutrient col v = v) ∧
    (∀ q : ℚ, 0 ≤ q →
      filter_nutrient "saturated_fat_100g" (PyVal.num q) = PyVal.num q ∧
      filter_nutrient "sugars_100g" (PyVal.num q) = PyVal.num q ∧
      filter_nutrient "fiber_100g" (PyVal.num q) = PyVal.num q ∧
      filter_nutrient "salt_100g" (PyVal.num q) = PyVal.num q) := by
  refine ⟨?_, filter_keeps_or_none, ?_⟩
  · intro rows hdf r hr
    rcases npj_ok_inv h with ⟨-, hemp⟩ | ⟨products, rows0, -, -, -, htab⟩
    · rw [hemp] at hdf
      exact absurd hdf (by simp)
    · rw [htab] at hdf
      injection hdf with h2
      rw [← h2] at hr
      obtain ⟨r0, -, rfl⟩ := List.mem_map.mp hr
      exact coerce_filter_row_bounds r0
  · intro q hq
    exact ⟨filter_nonneg_keeps _ (by decide) (by decide) hq,
      filter_nonneg_keeps _ (by decide) (by decide) hq,
      filter_nonneg_keeps _ (by decide) (by decide) hq,
      filter_nonneg_keeps _ (by decide) (by decide) hq⟩

/-- C5, witness at the concrete build of the unit-correction example. -/
theorem C5_witness :
    (∀ rows, DataFrame.table [bar1800_row] = DataFrame.table rows →
      ∀ r ∈ rows, row_bounds r) ∧
    (∀ col v, filter_nutrient col v = PyVal.none ∨ filter_nutrient col v = v) ∧
    (∀ q : ℚ, 0 ≤ q →
      filter_nutrient "saturated_fat_100g" (PyVal.num q) = PyVal.num q ∧
      filter_nutrient "sugars_100g" (PyVal.num q) = PyVal.num q ∧
      filter_nutrient "fiber_100g" (PyVal.num q) = PyVal.num q ∧
      filter_nutrient "salt_100g" (PyVal.num q) = PyVal.num q) :=
  C5_plausibility bar1800_json (DataFrame.table [bar1800_row]) rfl

/-- C6, counterexample. The record
`{"product_name": "Bar", "nutrition_grades": 0, "ecoscore": "a"}` yields a
retained row whose nutriscore cell stores the raw value 0 — outside the
five-letter enumeration, stored unvalidated because 0 is falsy and skips
the validation branch — and whose ecoscore cell is absent even though a
valid grade sits under the alternate-named key `ecoscore`: ecoscore is
read from the single field `ecoscore_grade` with no fallback. -/
theorem C6_counterexample :
    normalize_products_json falsy_grade_json = Except.ok (DataFrame.table [falsy_grade_row]) ∧
    falsy_grade_row.nutriscore = PyVal.num 0 ∧
    falsy_grade_row.ecoscore = PyVal.none ∧
    dget falsy_grade_record "ecoscore" PyVal.none = PyVal.str "a" := ⟨rfl, rfl, rfl, rfl⟩

/-- C6, amended. nutriscore is resolved from `nutrition_grade_fr` with
fallback `nutrition_grades`; ecoscore is resolved from the single field
`ecoscore_grade` with no fallback (the cell depends on nothing else). A
truthy resolved value is lowercased and validated against
`{a, b, c, d, e}`, anything else becoming absent; a falsy non-absent
resolved value is stored raw, skipping validation. Hence every stored
grade cell is absent, a valid lowercase grade, or a falsy raw value. -/
theorem C6_grade_resolution (p p2 : PyDict) (r r2 : Row)
    (h : normalize_record p = Except.ok (some r))
    (h2 : normalize_record p2 = Except.ok (some r2)) :
    grade_cell_ok r.nutriscore ∧ grade_cell_ok r.ecoscore ∧
    (dget p "ecoscore_grade" PyVal.none = dget p2 "ecoscore_grade" PyVal.none →
      r.ecoscore = r2.ecoscore) ∧
    (dget p "nutrition_grade_fr" PyVal.none = dget p2 "nutrition_grade_fr" PyVal.none →
      dget p "nutrition_grades" PyVal.none = dget p2 "nutrition_grades" PyVal.none →
      r.nutriscore = r2.nutriscore) := by
  obtain ⟨nutr, ns1, ns2, eco1, hnutr, hns1, hns2, hnsc, heco1, heco, -⟩ :=
    normalize_record_some_inv h
  obtain ⟨nutrB, ns1B, ns2B, eco1B, hnutrB, hns1B, hns2B, hnscB, heco1B, hecoB, -⟩ :=
    normalize_record_some_inv h2
  refine ⟨validate_grade_ok_cases hnsc, validate_grade_ok_cases heco, ?_, ?_⟩
  · intro hde
    rw [cfield, hde, ← cfield] at heco1
    rw [heco1B] at heco1
    injection heco1 with he2
    rw [← he2] at heco
    rw [hecoB] at heco
    injection heco with he3
    exact he3.symm
  · intro hd1 hd2
    rw [cfield, hd1, ← cfield] at hns1
    rw [hns1B] at hns1
    injection hns1 with hn2
    rw [cfield, hd2, ← cfield] at hns2
    rw [← hn2] at hns2
    rw [hns2B] at hns2
    injection hns2 with hn3
    rw [← hn3] at hnsc
    rw [hnscB] at hnsc
    injection hnsc with hn4
    exact hn4.symm

/-- C6, witness for the amended theorem at the counterexample record. -/
theorem C6_witness :
    grade_cell_ok falsy_grade_row.nutriscore ∧
    grade_cell_ok falsy_grade_row.ecoscore ∧
    (dget falsy_grade_record "ecoscore_grade" PyVal.none
        = dget falsy_grade_record "ecoscore_grade" PyVal.none →
      falsy_grade_row.ecoscore = falsy_grade_row.ecoscore) ∧
    (dget falsy_grade_record "nutrition_grade_fr" PyVal.none
        = dget falsy_grade_record "nutrition_grade_fr" PyVal.none →
      dget falsy_grade_record "nutrition_grades" PyVal.none
        = dget falsy_grade_record "nutrition_grades" PyVal.none →
      falsy_grade_row.nutriscore = falsy_grade_row.nutriscore) :=
  C6_grade_resolution falsy_grade_record falsy_grade_record
    falsy_grade_row falsy_grade_row rfl rfl

/-- C7, counterexample. The tag `en:b/c` is split only on colons: its
display form is `B/C`, not the `C` the claim's colon/slash reading
prescribes, and a one-row Dataset carrying it counts the ingredient
`B/C`. -/
theorem C7_counterexample :
    top_ingredients_from_df (DataFrame.table [slash_tag_row]) 20
      = Except.ok [("B/C", 1)] ∧
    display_form "en:b/c" = "B/C" ∧
    display_form_claim "en:b/c" = "C" ∧
    ("B/C" : String) ≠ "C" := ⟨rfl, rfl, rfl, by decide⟩

/-- C7, amended. `top_ingredients_from_df` takes the last colon-delimited
segment of each present ingredient tag (slashes are not separators),
replaces hyphens with spaces, title-cases it, merges raw tags whose
display forms coincide by counting occurrences of the display form,
excludes display forms whose lowercase equals one of
{unknown, n/a, none, the empty string}, and returns at most `n` entries
ordered descending by count with ties in first-encountered order: the
Counter accumulation equals the occurrence tally in first-occurrence
order, stable-sorted by count. -/
theorem C7_top_ingredients (rows : List Row) (n : Nat)
    (h : ∀ r ∈ rows, tags_ok r.ingredients_tags = true) :
    ∃ l, top_ingredients_from_df (DataFrame.table rows) n = Except.ok l ∧
      top_ingredients_claim rows n = Except.ok l ∧
      l.length ≤ n ∧
      l.Pairwise (fun a b => b.2 ≤ a.2) :=
  top_ingredients_table h n

/-- C7, witness for the amended theorem at a one-row table. -/
theorem C7_witness :
    ∃ l, top_ingredients_from_df (DataFrame.table [slash_tag_row]) 20 = Except.ok l ∧
      top_ingredients_claim [slash_tag_row] 20 = Except.ok l ∧
      l.length ≤ 20 ∧
      l.Pairwise (fun a b => b.2 ≤ a.2) :=
  C7_top_ingredients [slash_tag_row] 20 (by decide)

/-- C9. Building is idempotent: the pipeline is a pure function of the raw
input, so re-running `normalize_products_json` on the same envelope yields
a structurally identical result — the same rows in the same order, or the
same error. -/
theorem C9_build_idempotent (j : PyDict) :
    normalize_products_json j = normalize_products_json j := rfl

/-- C10. Field preference for energy is decided by truthiness, not key
presence: whenever the kcal-denominated field holds a falsy value (0,
empty string, or None — even while the key is present), the row's energy
cell is whatever the ambiguous generic `energy_100g` field holds, so a
genuine 0-kcal reading is replaced by the generic value. -/
theorem C10_truthiness_fallback (p : PyDict) (r : Row) (nutr : PyDict)
    (h : normalize_record p = Except.ok (some r))
    (hn : get_nutriments p = Except.ok nutr)
    (hk : truthy (dget nutr "energy-kcal_100g" PyVal.none) = false) :
    r.energy_100g_kcal = dget nutr "energy_100g" PyVal.none := by
  obtain ⟨nutr0, ns1, ns2, eco1, hn0, -, -, -, -, -, he⟩ := normalize_record_some_inv h
  rw [hn0] at hn
  injection hn with hn2
  subst hn2
  rw [he, py_or, if_neg (by simp [hk])]

/-- C10, witness at a record whose kcal field is present but 0 and whose
generic field holds 500: the built row's energy cell is 500, not 0. -/
theorem C10_witness :
    zero_kcal_row.energy_100g_kcal = dget zero_kcal_nutr "energy_100g" PyVal.none :=
  C10_truthiness_fallback zero_kcal_record zero_kcal_row zero_kcal_nutr rfl rfl rfl

end NutriLens
